import Mathlib

/-!
Shallow embedding of the `cpp-simple-vector` repository.

Source files embedded:
* `src/simple-vector/array_ptr.h`   — `ArrayPtr<Type>`, the exclusive-ownership
  wrapper over one raw heap allocation.
* `src/simple-vector/simple_vector.h` — `SimpleVector<Type>`, the dynamic array.

Modelling conventions:
* `size_t` values are `Nat` (the source never relies on wrap-around).
* A raw handle (`Type*`) is `Option Nat`: `none` is the null pointer, `some a`
  the address of a block.
* The contents of the block owned by a `SimpleVector` are a `List α` whose
  length is the number of slots actually allocated by `new Type[...]`.  The
  `size_` and `capacity_` counters are separate fields, exactly as in the
  source, so discrepancies between the recorded capacity and the real
  allocation are representable.
* `Type{}` (default construction / the slots produced by `new Type[n]`) is
  `default` from an `Inhabited` instance.
* The element-wise `operator==` / `operator<` of `Type` are modelled by
  decidable equality and a linear order on `α`.
* A C++ iterator into a vector is modelled by its offset (a `Nat` index);
  `begin()` is offset `0`, `end()` is offset `size_`.
-/

/-- Handle state of `ArrayPtr<Type>` (`array_ptr.h`): the single data member
`raw_ptr_` is either the null pointer (`none`) or the address of the owned
block (`some addr`). -/
structure ArrayPtr where
  raw_ptr : Option Nat := none

/-- `ArrayPtr(ArrayPtr&&) = default;` (`array_ptr.h` line 19): the defaulted
move constructor performs member-wise move, and moving a raw pointer just
copies it.  Result: `(the newly constructed object, the source afterwards)`.
Neither object's `raw_ptr_` is cleared and no allocation happens. -/
def ArrayPtr.moveCtor (other : ArrayPtr) : ArrayPtr × ArrayPtr :=
  ({ raw_ptr := other.raw_ptr }, { raw_ptr := other.raw_ptr })

/-- `ArrayPtr& operator=(ArrayPtr&&) = default;` (`array_ptr.h` line 28):
member-wise move assignment of a raw pointer copies it.  Result:
`(the assigned-to object afterwards, the source afterwards)`. -/
def ArrayPtr.moveAssign (dst src : ArrayPtr) : ArrayPtr × ArrayPtr :=
  ({ dst with raw_ptr := src.raw_ptr }, { src with raw_ptr := src.raw_ptr })

/-- `Type* Release()` (`array_ptr.h` lines 30-34): returns the handle and
nulls the member.  Result: `(returned raw pointer, the object afterwards)`. -/
def ArrayPtr.Release (a : ArrayPtr) : Option Nat × ArrayPtr :=
  (a.raw_ptr, { raw_ptr := none })

/-- State of a `SimpleVector<Type>` (`simple_vector.h` lines 267-270):
`items` is the contents of the block owned by the `items_` member
(`items.length` = number of slots actually allocated), `size` is `size_`,
`capacity` is `capacity_`. -/
structure SimpleVector (α : Type) where
  items : List α
  size : Nat := 0
  capacity : Nat := 0

namespace SimpleVector

variable {α : Type} [Inhabited α]

/-- The logically valid elements, i.e. the slots at offsets `[0, size_)`:
what iteration over `[begin(), end())` observes. -/
def elems (v : SimpleVector α) : List α := v.items.take v.size

/-- Well-formedness of a vector state: the invariant the spec claims, namely
that `size_ ≤ capacity_` and that the owned block really has `capacity_`
allocated slots. -/
def WF (v : SimpleVector α) : Prop :=
  v.size ≤ v.capacity ∧ v.items.length = v.capacity

instance (v : SimpleVector α) : Decidable v.WF := by
  unfold WF; infer_instance

/-- `explicit SimpleVector(size_t size)` (`simple_vector.h` lines 42-48):
allocates `size` slots, sets `size_ = capacity_ = size` and fills the used
range with `Type{}`. -/
def sized (n : Nat) : SimpleVector α :=
  { items := List.replicate n default, size := n, capacity := n }

/-- `SimpleVector(std::initializer_list<Type> init)` (`simple_vector.h`
lines 58-64): allocates `init.size()` slots, sets `size_ = capacity_` to it
and moves the literal's elements in, order preserved. -/
def fromList (xs : List α) : SimpleVector α :=
  { items := xs, size := xs.length, capacity := xs.length }

/-- `SimpleVector(const SimpleVector& other)` (`simple_vector.h` lines
66-71): builds `tmp(other.size_)` (a block of exactly `other.size_`
default-filled slots), copies `[other.begin(), other.end())` over its front,
then swaps `*this` with `tmp`.  The copy overwrites the first
`other.elems.length` slots; the remaining slots (none, for a well-formed
source) keep their `Type{}` value. -/
def copyCtor (other : SimpleVector α) : SimpleVector α :=
  { items := other.elems ++ List.replicate (other.size - other.elems.length) default,
    size := other.size, capacity := other.size }

/-- `SimpleVector(SimpleVector&& other)` (`simple_vector.h` lines 74-79):
`std::exchange` steals the buffer and both counters and leaves `other` with a
null buffer and `size_ = capacity_ = 0`.  Result:
`(the newly constructed object, the source afterwards)`. -/
def moveCtor (other : SimpleVector α) : SimpleVector α × SimpleVector α :=
  (other, { items := [], size := 0, capacity := 0 })

/-- `std::equal(lhs.begin(), lhs.end(), rhs.begin())` as used by
`operator==` (`simple_vector.h` line 275): walks the first range, comparing
element-wise with `operator==` of `Type`.  The `_ :: _, []` case is
unreachable under the size guard of `operator==` (the C++ call requires the
second range to be at least as long as the first). -/
def stdEqual [DecidableEq α] : List α → List α → Bool
  | [], _ => true
  | _ :: _, [] => true
  | x :: xs, y :: ys => decide (x = y) && stdEqual xs ys

/-- `operator==` (`simple_vector.h` lines 273-276): same size and
element-wise equal over `[begin(), end())`. -/
def veq [DecidableEq α] (lhs rhs : SimpleVector α) : Bool :=
  decide (lhs.size = rhs.size) && stdEqual lhs.elems rhs.elems

/-- `operator!=` (`simple_vector.h` lines 278-281): `!(lhs == rhs)`. -/
def vne [DecidableEq α] (lhs rhs : SimpleVector α) : Bool :=
  !(veq lhs rhs)

/-- `std::lexicographical_compare` over two whole ranges as used by
`operator<` (`simple_vector.h` line 285): walks both ranges; the first
strictly smaller element decides; a range that runs out first is smaller. -/
def lexLt [LinearOrder α] : List α → List α → Bool
  | _, [] => false
  | [], _ :: _ => true
  | x :: xs, y :: ys => if x < y then true else if y < x then false else lexLt xs ys

/-- `operator<` (`simple_vector.h` lines 283-286). -/
def vlt [LinearOrder α] (lhs rhs : SimpleVector α) : Bool :=
  lexLt lhs.elems rhs.elems

/-- `operator<=` (`simple_vector.h` lines 288-291): `!(rhs < lhs)`. -/
def vle [LinearOrder α] (lhs rhs : SimpleVector α) : Bool :=
  !(vlt rhs lhs)

/-- `operator>` (`simple_vector.h` lines 293-296): `rhs < lhs`. -/
def vgt [LinearOrder α] (lhs rhs : SimpleVector α) : Bool :=
  vlt rhs lhs

/-- `operator>=` (`simple_vector.h` lines 298-301): `!(lhs < rhs)`. -/
def vge [LinearOrder α] (lhs rhs : SimpleVector α) : Bool :=
  !(vlt lhs rhs)

/-- `operator=(const SimpleVector& rhs)` (`simple_vector.h` lines 81-87):
guarded by `*this != rhs` (content inequality); when the guard passes it
copy-constructs `tmp(rhs)` and swaps with it, otherwise it does nothing. -/
def assignCopy [DecidableEq α] (lhs rhs : SimpleVector α) : SimpleVector α :=
  if vne lhs rhs then copyCtor rhs else lhs

/-- `operator=(SimpleVector&& rhs)` (`simple_vector.h` lines 90-96): same
body as the copy assignment.  Inside the operator `rhs` is an lvalue, so
`auto tmp(rhs)` selects the COPY constructor: the source is copied, not
moved, and is left untouched.  Result: `(the assigned-to object afterwards,
the source afterwards)`. -/
def assignMove [DecidableEq α] (lhs rhs : SimpleVector α) : SimpleVector α × SimpleVector α :=
  if vne lhs rhs then (copyCtor rhs, rhs) else (lhs, rhs)

/-- `Iterator Insert(ConstIterator pos, const Type& value)` (`simple_vector.h`
lines 109-129), with `pos` given as its offset `index`.  If `size_ <
capacity_`: `std::copy_backward(pos, cend(), std::next(end()))` shifts the
slots `[index, size_)` one to the right, then `items_[index] = value` and
`++size_`.  Otherwise: a new block of `max(size_ + 1, capacity_ * 2)`
default-initialized slots is allocated, `[0, index)` is moved to its front,
`value` written at `index`, `[index, size_)` moved after it, the buffers are
swapped and `capacity_` updated.  Result: `(vector afterwards, offset of the
returned iterator)`. -/
def Insert (v : SimpleVector α) (index : Nat) (value : α) : SimpleVector α × Nat :=
  if v.size < v.capacity then
    ({ items := v.items.take index
          ++ (value :: (v.items.drop index).take (v.size - index))
          ++ v.items.drop (v.size + 1),
       size := v.size + 1, capacity := v.capacity }, index)
  else
    let capacity_new := max (v.size + 1) (v.capacity * 2)
    ({ items := v.items.take index
          ++ (value :: (v.items.drop index).take (v.size - index))
          ++ List.replicate (capacity_new - (v.size + 1)) default,
       size := v.size + 1, capacity := capacity_new }, index)

/-- `void PushBack(const Type& value)` (`simple_vector.h` lines 99-101):
`Insert(end(), value)`. -/
def PushBack (v : SimpleVector α) (value : α) : SimpleVector α :=
  (v.Insert v.size value).1

/-- `Iterator Erase(ConstIterator pos)` (`simple_vector.h` lines 160-167),
with `pos` given as its offset `index`.  `pos == end()` returns `end()` and
does nothing.  Otherwise `std::move(pos + 1, end(), pos)` shifts the slots
`[index + 1, size_)` one to the left (the slot at `size_ - 1` keeps its
moved-from value) and `size_--`.  Result: `(vector afterwards, offset of the
returned iterator)`. -/
def Erase (v : SimpleVector α) (index : Nat) : SimpleVector α × Nat :=
  if index = v.size then (v, v.size)
  else
    ({ items := v.items.take index
          ++ (v.items.drop (index + 1)).take (v.size - index - 1)
          ++ v.items.drop (v.size - 1),
       size := v.size - 1, capacity := v.capacity }, index)

/-- `void Reserve(size_t new_capacity)` (`simple_vector.h` lines 175-183):
if `new_capacity > capacity_`, allocate a block of exactly `new_capacity`
default-initialized slots, move `[begin(), end())` to its front, swap
buffers and set `capacity_ = new_capacity`; otherwise do nothing. -/
def Reserve (v : SimpleVector α) (new_capacity : Nat) : SimpleVector α :=
  if new_capacity > v.capacity then
    { items := v.elems ++ List.replicate (new_capacity - v.elems.length) default,
      size := v.size, capacity := new_capacity }
  else v

/-- `Type& At(size_t index)` (`simple_vector.h` lines 205-209): returns
`items_[index]` when `index < size_`, otherwise throws
`std::out_of_range`.  The vector itself is not modified in either case
(modelled by `At` being a pure observer). -/
def At (v : SimpleVector α) (index : Nat) : Except String α :=
  if index < v.size then Except.ok (v.items.getD index default)
  else Except.error ("Incorrect argument: SimpleVector::At")

/-- `void Resize(size_t new_size)` (`simple_vector.h` lines 221-241).
Branch 1 (`new_size <= size_`): only `size_` changes.  Branch 2
(`size_ < new_size <= capacity_`): `std::generate` fills the slots
`[size_, new_size)` with `Type{}` and `size_` grows.  Branch 3
(`new_size > capacity_`): a new block of exactly `new_size` slots is
allocated, `[begin(), end())` moved in, `[size_, new_size)` filled with
`Type{}`, buffers swapped, `size_ = new_size` and
`capacity_ = max(capacity_ * 2, new_size)` — note the recorded capacity can
exceed the `new_size` slots actually allocated. -/
def Resize (v : SimpleVector α) (new_size : Nat) : SimpleVector α :=
  if new_size ≤ v.size then
    { v with size := new_size }
  else if new_size ≤ v.capacity then
    { items := v.items.take v.size
        ++ List.replicate (new_size - v.size) default
        ++ v.items.drop new_size,
      size := new_size, capacity := v.capacity }
  else
    { items := v.elems ++ List.replicate (new_size - v.elems.length) default,
      size := new_size, capacity := max (v.capacity * 2) new_size }

end SimpleVector

/-! ## Helper lemmas -/

lemma SimpleVector.elems_length {α : Type} [Inhabited α] {v : SimpleVector α}
    (hwf : v.WF) : v.elems.length = v.size := by
  have h1 := hwf.1; have h2 := hwf.2
  simp [SimpleVector.elems]
  omega

/-! ## Claims -/

/-- C1: the claim says `ArrayPtr` move construction and move assignment
transfer the raw handle, leave the source with a null handle, and perform no
allocation.  The move operations in the code are `= default`, and a defaulted
move of a raw-pointer member copies the pointer: at the concrete input below
the destination does receive the handle, but the source still holds the same
non-null handle afterwards, so the "source becomes empty" part of the claim
is false of the code (both objects then own the block and the destructor
`delete[]`s it twice). -/
theorem C1_arrayptr_default_move_keeps_source :
    (ArrayPtr.moveCtor { raw_ptr := some 7 }).1.raw_ptr = some 7 ∧
    (ArrayPtr.moveCtor { raw_ptr := some 7 }).2.raw_ptr = some 7 ∧
    ¬((ArrayPtr.moveCtor { raw_ptr := some 7 }).2.raw_ptr = none) ∧
    (ArrayPtr.moveAssign { raw_ptr := none } { raw_ptr := some 7 }).2.raw_ptr = some 7 := by
  decide

/-- C2: the claim says a `SimpleVector` ownership move leaves the source with
`size() == 0` and `capacity() == 0` and transfers the block without copying.
Move construction does so, but the move assignment operator's body builds its
temporary with `auto tmp(rhs)` — a copy — so at the concrete input below the
moved-from source still reports size 1 and capacity 1 and the element was
copied into the target, contradicting the claim. -/
theorem C2_move_assign_leaves_source_nonempty :
    ((SimpleVector.assignMove (SimpleVector.fromList ([] : List Nat))
        (SimpleVector.fromList [1])).2).size = 1 ∧
    ((SimpleVector.assignMove (SimpleVector.fromList ([] : List Nat))
        (SimpleVector.fromList [1])).2).capacity = 1 ∧
    ((SimpleVector.assignMove (SimpleVector.fromList ([] : List Nat))
        (SimpleVector.fromList [1])).1).elems = [1] ∧
    ((SimpleVector.moveCtor (SimpleVector.fromList [1] : SimpleVector Nat)).2).size = 0 ∧
    ((SimpleVector.moveCtor (SimpleVector.fromList [1] : SimpleVector Nat)).2).capacity = 0 := by
  decide

/-- C3: the claim says every public operation keeps `size ≤ capacity` with the
underlying buffer really holding `capacity` allocated slots.  `Resize`
violates the allocation part: growing a well-formed vector of
size = capacity = 2 to size 3 allocates a block of only 3 slots yet records
`capacity_ = max(2 * 2, 3) = 4`. -/
theorem C3_resize_breaks_capacity_invariant :
    (SimpleVector.sized 2 : SimpleVector Nat).WF ∧
    ((SimpleVector.sized 2 : SimpleVector Nat).Resize 3).capacity = 4 ∧
    ((SimpleVector.sized 2 : SimpleVector Nat).Resize 3).items.length = 3 ∧
    ¬((SimpleVector.sized 2 : SimpleVector Nat).Resize 3).WF := by
  decide

/-- C4: `Resize(n)` with `n ≤ size` only shrinks `size_` to `n`; with
`size < n ≤ capacity` it default-constructs the slots `[size, n)` and sets
`size_ = n` with capacity (and the allocation) unchanged; with `n > capacity`
it allocates a new block of exactly `n` slots, moves the existing elements
in followed by default-constructed slots, and sets
`capacity_ = max(capacity * 2, n)` and `size_ = n`. -/
theorem C4_resize_spec (α : Type) [Inhabited α] (v : SimpleVector α) (n : Nat)
    (hwf : v.WF) :
    (n ≤ v.size → v.Resize n = { v with size := n }) ∧
    (v.size < n → n ≤ v.capacity →
      (v.Resize n).size = n ∧ (v.Resize n).capacity = v.capacity ∧
      (v.Resize n).items.length = v.items.length ∧
      (v.Resize n).elems = v.elems ++ List.replicate (n - v.size) default) ∧
    (v.capacity < n →
      (v.Resize n).size = n ∧ (v.Resize n).capacity = max (v.capacity * 2) n ∧
      (v.Resize n).items.length = n ∧
      (v.Resize n).elems = v.elems ++ List.replicate (n - v.size) default) := by
  obtain ⟨h1, h2⟩ := hwf
  refine ⟨fun h => ?_, fun hlt hle => ?_, fun hlt => ?_⟩
  · simp [SimpleVector.Resize, h]
  · have hn1 : ¬ n ≤ v.size := by omega
    refine ⟨?_, ?_, ?_, ?_⟩ <;>
      simp only [SimpleVector.Resize, if_neg hn1, if_pos hle]
    · simp
      omega
    · have hlen : (v.items.take v.size ++ List.replicate (n - v.size) default).length = n := by
        simp
        omega
      show ((v.items.take v.size ++ List.replicate (n - v.size) default)
          ++ v.items.drop n).take n = _
      rw [List.take_left' hlen]
      rfl
  · have hn1 : ¬ n ≤ v.size := by omega
    have hn2 : ¬ n ≤ v.capacity := by omega
    have helen : v.elems.length = v.size := by
      simp [SimpleVector.elems]
      omega
    refine ⟨?_, ?_, ?_, ?_⟩ <;>
      simp only [SimpleVector.Resize, if_neg hn1, if_neg hn2]
    · simp [helen]
      omega
    · show (v.elems ++ List.replicate (n - v.elems.length) default).take n = _
      rw [helen]
      have hl : (v.elems ++ List.replicate (n - v.size) default).length = n := by
        simp [helen]
        omega
      rw [List.take_of_length_le (le_of_eq hl)]

/-- C4 witness: `Resize` applied across the growth branch at a concrete
well-formed vector of size = capacity = 1. -/
theorem C4_resize_spec_witness :
    ((SimpleVector.sized 1 : SimpleVector Nat).Resize 3).size = 3 ∧
    ((SimpleVector.sized 1 : SimpleVector Nat).Resize 3).capacity = max (1 * 2) 3 ∧
    ((SimpleVector.sized 1 : SimpleVector Nat).Resize 3).items.length = 3 ∧
    ((SimpleVector.sized 1 : SimpleVector Nat).Resize 3).elems
      = (SimpleVector.sized 1 : SimpleVector Nat).elems ++ List.replicate 2 default := by
  have h := (C4_resize_spec Nat (SimpleVector.sized 1) 3 (by decide)).2.2 (by decide)
  exact ⟨h.1, h.2.1, h.2.2.1, h.2.2.2⟩

/-- C7: `Reserve(n)` with `n > capacity` reallocates to exactly `n` slots,
keeps `size_` and the stored elements unchanged and sets `capacity_ = n`;
with `n ≤ capacity` it changes nothing at all; `capacity` never decreases. -/
theorem C7_reserve_spec (α : Type) [Inhabited α] (v : SimpleVector α) (n : Nat)
    (hwf : v.WF) :
    (v.capacity < n →
      (v.Reserve n).capacity = n ∧ (v.Reserve n).size = v.size ∧
      (v.Reserve n).items.length = n ∧ (v.Reserve n).elems = v.elems) ∧
    (n ≤ v.capacity → v.Reserve n = v) ∧
    v.capacity ≤ (v.Reserve n).capacity := by
  obtain ⟨h1, h2⟩ := hwf
  have helen : v.elems.length = v.size := by
    simp [SimpleVector.elems]
    omega
  refine ⟨fun hlt => ?_, fun hle => ?_, ?_⟩
  · refine ⟨?_, ?_, ?_, ?_⟩ <;>
      simp only [SimpleVector.Reserve, gt_iff_lt, if_pos hlt]
    · simp [helen]
      omega
    · show (v.elems ++ List.replicate (n - v.elems.length) default).take v.size = _
      rw [List.take_append_of_le_length (le_of_eq helen.symm),
        List.take_of_length_le (le_of_eq helen)]
  · simp [SimpleVector.Reserve, not_lt_of_le hle]
  · by_cases hlt : v.capacity < n
    · simp only [SimpleVector.Reserve, gt_iff_lt, if_pos hlt]
      omega
    · simp [SimpleVector.Reserve, hlt]

/-- C7 witness: `Reserve` at a concrete two-element vector, across both the
reallocating and the no-op branch. -/
theorem C7_reserve_spec_witness :
    ((SimpleVector.fromList [1, 2] : SimpleVector Nat).Reserve 5).capacity = 5 ∧
    ((SimpleVector.fromList [1, 2] : SimpleVector Nat).Reserve 5).elems = [1, 2] ∧
    ((SimpleVector.fromList [1, 2] : SimpleVector Nat).Reserve 5).items.length = 5 ∧
    (SimpleVector.fromList [1, 2] : SimpleVector Nat).Reserve 1
      = SimpleVector.fromList [1, 2] := by
  have h := C7_reserve_spec Nat (SimpleVector.fromList [1, 2]) 5 (by decide)
  have h1 := h.1 (by decide)
  have h' := C7_reserve_spec Nat (SimpleVector.fromList [1, 2]) 1 (by decide)
  exact ⟨h1.1, h1.2.2.2, h1.2.2.1, h'.2.1 (by decide)⟩

/-- C5: for any valid offset `i ≤ size`, `Insert(i, x)` returns offset `i`,
grows `size_` by one, and the stored elements become the old elements with
`x` inserted before offset `i` (prefix unchanged, suffix shifted right by
one, `x` readable at offset `i`); when `size < capacity` the buffer is
untouched, and when `size == capacity` the vector first reallocates to
exactly `max(size + 1, capacity * 2)` slots. -/
theorem C5_insert_spec (α : Type) [Inhabited α] (v : SimpleVector α) (i : Nat)
    (x : α) (hwf : v.WF) (hi : i ≤ v.size) :
    (v.Insert i x).2 = i ∧
    (v.Insert i x).1.size = v.size + 1 ∧
    (v.Insert i x).1.elems = v.elems.take i ++ x :: v.elems.drop i ∧
    (v.size < v.capacity →
      (v.Insert i x).1.capacity = v.capacity ∧
      (v.Insert i x).1.items.length = v.items.length) ∧
    (v.size = v.capacity →
      (v.Insert i x).1.capacity = max (v.size + 1) (v.capacity * 2) ∧
      (v.Insert i x).1.items.length = max (v.size + 1) (v.capacity * 2)) := by
  obtain ⟨h1, h2⟩ := hwf
  have htt : v.elems.take i = v.items.take i := by
    simp [SimpleVector.elems, List.take_take, min_eq_left hi]
  have htd : v.elems.drop i = (v.items.drop i).take (v.size - i) := by
    simp [SimpleVector.elems, List.drop_take]
  by_cases hc : v.size < v.capacity
  · have hmid : (v.items.take i ++ (x :: (v.items.drop i).take (v.size - i))).length
        = v.size + 1 := by
      simp
      omega
    refine ⟨?_, ?_, ?_, fun _ => ⟨?_, ?_⟩, fun hec => absurd hec (by omega)⟩ <;>
      simp only [SimpleVector.Insert, if_pos hc]
    · show ((v.items.take i ++ (x :: (v.items.drop i).take (v.size - i)))
          ++ v.items.drop (v.size + 1)).take (v.size + 1) = _
      rw [List.take_left' hmid, htt, htd]
    · simp
      omega
  · have hec : v.size = v.capacity := by omega
    have hmid : (v.items.take i ++ (x :: (v.items.drop i).take (v.size - i))).length
        = v.size + 1 := by
      simp
      omega
    refine ⟨?_, ?_, ?_, fun hlt => absurd hlt hc, fun _ => ⟨?_, ?_⟩⟩ <;>
      simp only [SimpleVector.Insert, if_neg hc]
    · show ((v.items.take i ++ (x :: (v.items.drop i).take (v.size - i)))
          ++ List.replicate (max (v.size + 1) (v.capacity * 2) - (v.size + 1)) default).take
            (v.size + 1) = _
      rw [List.take_left' hmid, htt, htd]
    · simp
      omega

/-- C5 witness: inserting 99 at offset 1 of `{10, 20, 30}` (a full vector, so
the reallocating branch runs). -/
theorem C5_insert_spec_witness :
    ((SimpleVector.fromList [10, 20, 30] : SimpleVector Nat).Insert 1 99).2 = 1 ∧
    ((SimpleVector.fromList [10, 20, 30] : SimpleVector Nat).Insert 1 99).1.size = 4 ∧
    ((SimpleVector.fromList [10, 20, 30] : SimpleVector Nat).Insert 1 99).1.elems
      = [10, 99, 20, 30] ∧
    ((SimpleVector.fromList [10, 20, 30] : SimpleVector Nat).Insert 1 99).1.capacity = 6 := by
  have h := C5_insert_spec Nat (SimpleVector.fromList [10, 20, 30]) 1 99
    (by decide) (by decide)
  have h5 := h.2.2.2.2 (by decide)
  refine ⟨h.1, h.2.1, ?_, h5.1⟩
  rw [h.2.2.1]
  rfl

/-- C6: `Erase(end)` is a no-op returning `end`; `Erase(i)` at a valid
non-end offset `i < size` returns offset `i`, removes the element at `i`
shifting all following elements left by one (relative order preserved),
decreases `size_` by exactly one, and leaves the capacity and the allocation
unchanged. -/
theorem C6_erase_spec (α : Type) [Inhabited α] (v : SimpleVector α) (i : Nat)
    (hwf : v.WF) :
    v.Erase v.size = (v, v.size) ∧
    (i < v.size →
      (v.Erase i).2 = i ∧
      (v.Erase i).1.size = v.size - 1 ∧
      (v.Erase i).1.elems = v.elems.take i ++ v.elems.drop (i + 1) ∧
      (v.Erase i).1.capacity = v.capacity ∧
      (v.Erase i).1.items.length = v.items.length) := by
  obtain ⟨h1, h2⟩ := hwf
  refine ⟨by simp [SimpleVector.Erase], fun hi => ?_⟩
  have hne : ¬ i = v.size := by omega
  have htt : v.elems.take i = v.items.take i := by
    simp [SimpleVector.elems, List.take_take, min_eq_left (le_of_lt hi)]
  have htd : v.elems.drop (i + 1) = (v.items.drop (i + 1)).take (v.size - (i + 1)) := by
    simp [SimpleVector.elems, List.drop_take]
  have hmid : (v.items.take i ++ (v.items.drop (i + 1)).take (v.size - i - 1)).length
      = v.size - 1 := by
    simp
    omega
  refine ⟨?_, ?_, ?_, ?_, ?_⟩ <;> simp only [SimpleVector.Erase, if_neg hne]
  · show ((v.items.take i ++ (v.items.drop (i + 1)).take (v.size - i - 1))
        ++ v.items.drop (v.size - 1)).take (v.size - 1) = _
    rw [List.take_left' hmid, htt, htd]
    have : v.size - i - 1 = v.size - (i + 1) := by omega
    rw [this]
  · simp
    omega

/-- C6 witness: erasing at offset 1 of `{10, 20, 30}`, and erasing at
`end()` of the same vector. -/
theorem C6_erase_spec_witness :
    ((SimpleVector.fromList [10, 20, 30] : SimpleVector Nat).Erase 1).2 = 1 ∧
    ((SimpleVector.fromList [10, 20, 30] : SimpleVector Nat).Erase 1).1.size = 2 ∧
    ((SimpleVector.fromList [10, 20, 30] : SimpleVector Nat).Erase 1).1.elems = [10, 30] ∧
    ((SimpleVector.fromList [10, 20, 30] : SimpleVector Nat).Erase 1).1.capacity = 3 ∧
    (SimpleVector.fromList [10, 20, 30] : SimpleVector Nat).Erase 3
      = (SimpleVector.fromList [10, 20, 30], 3) := by
  have h := C6_erase_spec Nat (SimpleVector.fromList [10, 20, 30]) 1 (by decide)
  have h2 := h.2 (by decide)
  refine ⟨h2.1, h2.2.1, ?_, h2.2.2.2.1, h.1⟩
  rw [h2.2.2.1]
  rfl

/-- C8: the checked accessor `At(i)` fails with out-of-range exactly when
`i ≥ size` — in particular `At(size)` always fails, also on an empty vector,
and `At(size - 1)` succeeds on a non-empty vector — and on success it yields
the element stored at offset `i`; `At` is a pure observer, so the vector's
state is unchanged in both cases. -/
theorem C8_at_spec (α : Type) [Inhabited α] (v : SimpleVector α) (i : Nat) :
    ((v.At i).isOk = true ↔ i < v.size) ∧
    (i < v.size → v.At i = Except.ok (v.items.getD i default)) ∧
    v.At v.size = Except.error ("Incorrect argument: SimpleVector::At") ∧
    (v.size ≠ 0 → (v.At (v.size - 1)).isOk = true) := by
  refine ⟨?_, fun hi => ?_, ?_, fun hne => ?_⟩
  · by_cases hi : i < v.size <;> simp [SimpleVector.At, hi, Except.isOk, Except.toBool]
  · simp [SimpleVector.At, hi]
  · simp [SimpleVector.At]
  · have : v.size - 1 < v.size := by omega
    simp [SimpleVector.At, this, Except.isOk, Except.toBool]

/-- C8 witness: `At` on the concrete vector `{7, 8}` and on the empty
vector. -/
theorem C8_at_spec_witness :
    (SimpleVector.fromList [7, 8] : SimpleVector Nat).At 1 = Except.ok 8 ∧
    (SimpleVector.fromList [7, 8] : SimpleVector Nat).At 2
      = Except.error ("Incorrect argument: SimpleVector::At") ∧
    ((SimpleVector.fromList ([] : List Nat)).At 0).isOk = false := by
  have h := C8_at_spec Nat (SimpleVector.fromList [7, 8]) 1
  have h0 := C8_at_spec Nat (SimpleVector.fromList ([] : List Nat)) 0
  refine ⟨h.2.1 (by decide), h.2.2.1, ?_⟩
  have hne : ¬ ((SimpleVector.fromList ([] : List Nat)).At 0).isOk = true :=
    fun hT => absurd (h0.1.mp hT) (by decide)
  simpa using hne

lemma SimpleVector.stdEqual_iff {α : Type} [DecidableEq α] (xs ys : List α)
    (h : xs.length = ys.length) : SimpleVector.stdEqual xs ys = true ↔ xs = ys := by
  induction xs generalizing ys with
  | nil =>
    cases ys with
    | nil => simp [SimpleVector.stdEqual]
    | cons y ys => simp at h
  | cons x xs ih =>
    cases ys with
    | nil => simp at h
    | cons y ys =>
      have h' : xs.length = ys.length := by simpa using h
      simp [SimpleVector.stdEqual, ih ys h']

lemma SimpleVector.lexLt_iff_lex {α : Type} [LinearOrder α] (xs ys : List α) :
    SimpleVector.lexLt xs ys = true ↔ List.Lex (fun a b : α => a < b) xs ys := by
  induction xs generalizing ys with
  | nil =>
    cases ys with
    | nil =>
      simp only [SimpleVector.lexLt]
      exact ⟨fun h => by simp at h, fun h => by cases h⟩
    | cons y ys =>
      simp only [SimpleVector.lexLt]
      exact ⟨fun _ => List.Lex.nil, fun _ => trivial⟩
  | cons x xs ih =>
    cases ys with
    | nil =>
      simp only [SimpleVector.lexLt]
      exact ⟨fun h => by simp at h, fun h => by cases h⟩
    | cons y ys =>
      simp only [SimpleVector.lexLt]
      rcases lt_trichotomy x y with hxy | rfl | hyx
      · rw [if_pos hxy]
        exact ⟨fun _ => List.Lex.rel hxy, fun _ => rfl⟩
      · rw [if_neg (lt_irrefl x), if_neg (lt_irrefl x)]
        refine (ih ys).trans ⟨fun h => List.Lex.cons h, fun h => ?_⟩
        cases h with
        | cons h' => exact h'
        | rel h' => exact absurd h' (lt_irrefl x)
      · rw [if_neg (lt_asymm hyx), if_pos hyx]
        refine ⟨fun h => by simp at h, fun h => ?_⟩
        cases h with
        | cons h' => exact absurd hyx (lt_irrefl x)
        | rel h' => exact absurd h' (lt_asymm hyx)

/-- C9: for well-formed vectors, `operator==` holds iff the two vectors have
the same size and equal element sequences; `operator<` is exactly the
standard lexicographic order on the element sequences (so a strict prefix
sorts first and the first differing element decides); and `!=`, `<=`, `>`,
`>=` are each derived from `==` and `<` alone. -/
theorem C9_relational_ops (α : Type) [LinearOrder α] [Inhabited α]
    (l r : SimpleVector α) (hl : l.WF) (hr : r.WF) :
    (SimpleVector.veq l r = true ↔ l.size = r.size ∧ l.elems = r.elems) ∧
    (SimpleVector.vlt l r = true ↔ List.Lex (fun a b : α => a < b) l.elems r.elems) ∧
    SimpleVector.vne l r = !(SimpleVector.veq l r) ∧
    SimpleVector.vle l r = !(SimpleVector.vlt r l) ∧
    SimpleVector.vgt l r = SimpleVector.vlt r l ∧
    SimpleVector.vge l r = !(SimpleVector.vlt l r) := by
  refine ⟨?_, SimpleVector.lexLt_iff_lex l.elems r.elems, rfl, rfl, rfl, rfl⟩
  constructor
  · intro h
    simp only [SimpleVector.veq, Bool.and_eq_true, decide_eq_true_eq] at h
    obtain ⟨hsz, heq⟩ := h
    have hlen : l.elems.length = r.elems.length := by
      rw [SimpleVector.elems_length hl, SimpleVector.elems_length hr, hsz]
    exact ⟨hsz, (SimpleVector.stdEqual_iff _ _ hlen).mp heq⟩
  · intro ⟨hsz, heq⟩
    have hlen : l.elems.length = r.elems.length := by rw [heq]
    simp only [SimpleVector.veq, Bool.and_eq_true, decide_eq_true_eq]
    exact ⟨hsz, (SimpleVector.stdEqual_iff _ _ hlen).mpr heq⟩

/-- C9 witness: the spec's concrete examples, driven through the claim
theorem: `{1,2,3} == {1,2,3}`, `{1,2,3} != {1,2}`, `{1,2} < {1,2,3}` (prefix
rule) and `{1,3} > {1,2,9}` (first differing element decides). -/
theorem C9_relational_ops_witness :
    SimpleVector.veq (SimpleVector.fromList [1, 2, 3] : SimpleVector Nat)
      (SimpleVector.fromList [1, 2, 3]) = true ∧
    SimpleVector.veq (SimpleVector.fromList [1, 2, 3] : SimpleVector Nat)
      (SimpleVector.fromList [1, 2]) = false ∧
    SimpleVector.vlt (SimpleVector.fromList [1, 2] : SimpleVector Nat)
      (SimpleVector.fromList [1, 2, 3]) = true ∧
    SimpleVector.vgt (SimpleVector.fromList [1, 3] : SimpleVector Nat)
      (SimpleVector.fromList [1, 2, 9]) = true := by
  have h1 := C9_relational_ops Nat (SimpleVector.fromList [1, 2, 3])
    (SimpleVector.fromList [1, 2, 3]) (by decide) (by decide)
  have h2 := C9_relational_ops Nat (SimpleVector.fromList [1, 2, 3])
    (SimpleVector.fromList [1, 2]) (by decide) (by decide)
  have h3 := C9_relational_ops Nat (SimpleVector.fromList [1, 2])
    (SimpleVector.fromList [1, 2, 3]) (by decide) (by decide)
  have h4 := C9_relational_ops Nat (SimpleVector.fromList [1, 2, 9])
    (SimpleVector.fromList [1, 3]) (by decide) (by decide)
  refine ⟨h1.1.mpr ⟨rfl, rfl⟩, ?_, ?_, ?_⟩
  · have : ¬ SimpleVector.veq (SimpleVector.fromList [1, 2, 3] : SimpleVector Nat)
        (SimpleVector.fromList [1, 2]) = true := by
      intro hT
      exact absurd (h2.1.mp hT).1 (by decide)
    simpa using this
  · exact h3.2.1.mpr (List.Lex.cons (List.Lex.cons List.Lex.nil))
  · exact h4.2.1.mpr (List.Lex.cons (List.Lex.rel (by norm_num)))

/-- C10: both assignment operators are guarded by the content-inequality
test `*this != rhs`, so for well-formed vectors with equal element
sequences, copy assignment and move assignment change nothing at all — the
target keeps its size, capacity and storage even when its capacity differs
from the source's — while for vectors whose contents differ, the assigned
vector is rebuilt by the copy constructor and its capacity afterwards equals
the source's size, not the source's capacity. -/
theorem C10_assign_content_guard (α : Type) [DecidableEq α] [Inhabited α]
    (l r : SimpleVector α) (hl : l.WF) (hr : r.WF) :
    (l.elems = r.elems →
      SimpleVector.assignCopy l r = l ∧ SimpleVector.assignMove l r = (l, r)) ∧
    (SimpleVector.veq l r = false →
      (SimpleVector.assignCopy l r).capacity = r.size ∧
      (SimpleVector.assignCopy l r).size = r.size ∧
      (SimpleVector.assignCopy l r).elems = r.elems ∧
      (SimpleVector.assignMove l r).1 = SimpleVector.assignCopy l r ∧
      (SimpleVector.assignMove l r).2 = r) := by
  constructor
  · intro heq
    have hsz : l.size = r.size := by
      rw [← SimpleVector.elems_length hl, ← SimpleVector.elems_length hr, heq]
    have hlen : l.elems.length = r.elems.length := by rw [heq]
    have hveq : SimpleVector.veq l r = true := by
      simp only [SimpleVector.veq, Bool.and_eq_true, decide_eq_true_eq]
      exact ⟨hsz, (SimpleVector.stdEqual_iff _ _ hlen).mpr heq⟩
    have hvne : SimpleVector.vne l r = false := by
      simp [SimpleVector.vne, hveq]
    constructor
    · simp [SimpleVector.assignCopy, hvne]
    · simp [SimpleVector.assignMove, hvne]
  · intro hne
    have hvne : SimpleVector.vne l r = true := by
      simp [SimpleVector.vne, hne]
    have hcopy : SimpleVector.assignCopy l r = SimpleVector.copyCtor r := by
      simp [SimpleVector.assignCopy, hvne]
    have helen : r.elems.length = r.size := SimpleVector.elems_length hr
    refine ⟨by rw [hcopy]; rfl, by rw [hcopy]; rfl, ?_,
      by simp [SimpleVector.assignMove, hvne, hcopy],
      by simp [SimpleVector.assignMove, hvne]⟩
    rw [hcopy]
    show (r.elems ++ List.replicate (r.size - r.elems.length) default).take r.size = _
    rw [List.take_append_of_le_length (le_of_eq helen.symm),
      List.take_of_length_le (le_of_eq helen)]

/-- C10 witness: a target of capacity 2 holding the single element 5 is
content-equal to `{5}` of capacity 1, so assigning changes nothing; a
content-different assignment from `{5}` onto the empty vector yields
capacity 1 (the source's size). -/
theorem C10_assign_content_guard_witness :
    SimpleVector.assignCopy (⟨[5, 5], 1, 2⟩ : SimpleVector Nat)
      (SimpleVector.fromList [5]) = (⟨[5, 5], 1, 2⟩ : SimpleVector Nat) ∧
    SimpleVector.assignMove (⟨[5, 5], 1, 2⟩ : SimpleVector Nat)
      (SimpleVector.fromList [5])
      = ((⟨[5, 5], 1, 2⟩ : SimpleVector Nat), SimpleVector.fromList [5]) ∧
    (SimpleVector.assignCopy (SimpleVector.fromList ([] : List Nat))
      (SimpleVector.fromList [5])).capacity = 1 ∧
    (SimpleVector.assignCopy (SimpleVector.fromList ([] : List Nat))
      (SimpleVector.fromList [5])).elems = [5] := by
  have h1 := (C10_assign_content_guard Nat (⟨[5, 5], 1, 2⟩ : SimpleVector Nat)
    (SimpleVector.fromList [5]) (by decide) (by decide)).1 (by decide)
  have h2 := (C10_assign_content_guard Nat (SimpleVector.fromList ([] : List Nat))
    (SimpleVector.fromList [5]) (by decide) (by decide)).2 (by decide)
  exact ⟨h1.1, h1.2, h2.1, h2.2.2.1⟩
